import Mathlib

/-!
Verification of the opentelemetry-go metrics core against its specification.

The first part embeds the global forwarding provider of
`api/global/internal/meter.go`: the forwarding `meterProvider`, `meter`,
`syncImpl`, `obsImpl` and `syncHandle` objects, their buffered-construction
behavior before a delegate is installed, and the `setDelegate` walk that
re-homes every buffered object onto the real implementation.

The heap of forwarding objects is modelled as total tables indexed by `Nat`
object identities; the real SDK behind the delegate is modelled as an event
log recording every call that reaches it.  An `unsafe.Pointer` delegate slot
that is either nil or set is modelled as a `Bool`; a `sync.Once` that is
either fresh or consumed is modelled as a `Bool`.
-/

namespace OtelGlobal

/-- A call delivered to the real (delegate) implementation. -/
inductive REvent where
  /-- `provider.Meter(name)` called on the real provider. -/
  | newMeter (name : String)
  /-- the stored constructor of a buffered synchronous instrument invoked
  against the real meter. -/
  | ctorSync (iid : Nat)
  /-- the stored constructor of a buffered asynchronous instrument invoked
  against the real meter. -/
  | ctorAsync (iid : Nat)
  /-- `RecordOne` routed to the real synchronous instrument. -/
  | record (iid : Nat) (n : Int)
  /-- `RecordBatch` routed to the real meter. -/
  | batch (mid : Nat) (ms : List (Nat × Int))
  /-- `Bind` invoked on the real instrument on behalf of handle `hid`. -/
  | bindEv (hid : Nat)
  /-- `RecordOne` routed to the real bound instrument of handle `hid`. -/
  | boundRecord (hid : Nat) (n : Int)
  /-- `Unbind` routed to the real bound instrument of handle `hid`. -/
  | unbindEv (hid : Nat)
  deriving DecidableEq, Repr

/-- Forwarding `meter` object: its delegate slot (`nil` = `false`), its name,
and the buffered lists `syncInsts` / `asyncInsts`. -/
structure MeterObj where
  name : String
  delegated : Bool
  syncInsts : List Nat
  asyncInsts : List Nat
  deriving DecidableEq, Repr

/-- Forwarding `syncImpl` / `obsImpl` object: just its delegate slot. -/
structure InstObj where
  delegated : Bool
  deriving DecidableEq, Repr

/-- Forwarding `syncHandle` object: the instrument it was bound from, the
`sync.Once` initializer (`true` = consumed) and its delegate slot. -/
structure HandleObj where
  instId : Nat
  initialized : Bool
  delegated : Bool
  deriving DecidableEq, Repr

/-- The whole forwarding world: the provider's delegate slot and buffered
meter list, the object tables, and the log of calls that reached the real
implementation. -/
@[ext]
structure GState where
  provDelegated : Bool
  provMeters : List Nat
  meters : Nat → MeterObj
  insts : Nat → InstObj
  asyncs : Nat → InstObj
  handles : Nat → HandleObj
  log : List REvent

/-- Result of a constructor-style call: a buffering forwarder, or a value
obtained directly from the real delegate. -/
inductive Ref where
  | forwarder (id : Nat)
  | real
  deriving DecidableEq, Repr

/-- `meterProvider.Meter(name)`: after delegation, call the real provider
directly; before, create a forwarding meter and buffer it in `p.meters`. -/
def meterProviderMeter (s : GState) (name : String) (mid : Nat) : GState × Ref :=
  if s.provDelegated then
    ({ s with log := s.log ++ [.newMeter name] }, .real)
  else
    ({ s with meters := Function.update s.meters mid ⟨name, false, [], []⟩,
              provMeters := s.provMeters ++ [mid] }, .forwarder mid)

/-- `meter.newSync`: if the meter already has a delegate, invoke the
constructor against the real meter directly; otherwise create a forwarding
`syncImpl` and buffer it in `m.syncInsts`. -/
def meterNewSync (s : GState) (mid iid : Nat) : GState × Ref :=
  if (s.meters mid).delegated then
    ({ s with log := s.log ++ [.ctorSync iid] }, .real)
  else
    ({ s with insts := Function.update s.insts iid ⟨false⟩,
              meters := Function.update s.meters mid
                { s.meters mid with syncInsts := (s.meters mid).syncInsts ++ [iid] } },
     .forwarder iid)

/-- `meter.newAsync`: asynchronous version of `meterNewSync`. -/
def meterNewAsync (s : GState) (mid iid : Nat) : GState × Ref :=
  if (s.meters mid).delegated then
    ({ s with log := s.log ++ [.ctorAsync iid] }, .real)
  else
    ({ s with asyncs := Function.update s.asyncs iid ⟨false⟩,
              meters := Function.update s.meters mid
                { s.meters mid with asyncInsts := (s.meters mid).asyncInsts ++ [iid] } },
     .forwarder iid)

/-- `syncImpl.setDelegate`: invoke the stored constructor against the real
meter and publish the resulting implementation pointer. -/
def syncImplSetDelegate (s : GState) (iid : Nat) : GState :=
  { s with insts := Function.update s.insts iid ⟨true⟩,
           log := s.log ++ [.ctorSync iid] }

/-- `obsImpl.setDelegate`: asynchronous version of `syncImplSetDelegate`. -/
def obsImplSetDelegate (s : GState) (iid : Nat) : GState :=
  { s with asyncs := Function.update s.asyncs iid ⟨true⟩,
           log := s.log ++ [.ctorAsync iid] }

/-- `meter.setDelegate`: obtain a real meter from the real provider, publish
it, walk the buffered instrument lists invoking each stored constructor, and
clear both lists. -/
def meterSetDelegate (s : GState) (mid : Nat) : GState :=
  let m := s.meters mid
  let s1 := { s with log := s.log ++ [.newMeter m.name] }
  let s2 := m.syncInsts.foldl syncImplSetDelegate s1
  let s3 := m.asyncInsts.foldl obsImplSetDelegate s2
  { s3 with meters := Function.update s3.meters mid ⟨m.name, true, [], []⟩ }

/-- `meterProvider.setDelegate`: store the delegate, walk every buffered
meter, and clear the buffered meter list. -/
def meterProviderSetDelegate (s : GState) : GState :=
  let s1 := { s with provDelegated := true }
  let s2 := s1.provMeters.foldl meterSetDelegate s1
  { s2 with provMeters := [] }

/-- `syncImpl.RecordOne`: route to the real instrument when delegated,
otherwise do nothing. -/
def syncImplRecordOne (s : GState) (iid : Nat) (n : Int) : GState :=
  if (s.insts iid).delegated then { s with log := s.log ++ [.record iid n] } else s

/-- `meter.RecordBatch`: route to the real meter when delegated, otherwise do
nothing. -/
def meterRecordBatch (s : GState) (mid : Nat) (ms : List (Nat × Int)) : GState :=
  if (s.meters mid).delegated then { s with log := s.log ++ [.batch mid ms] } else s

/-- `syncImpl.Bind`: after delegation bind against the real instrument;
before, return a fresh forwarding handle with an unconsumed initializer. -/
def syncImplBind (s : GState) (iid hid : Nat) : GState × Ref :=
  if (s.insts iid).delegated then
    ({ s with log := s.log ++ [.bindEv hid] }, .real)
  else
    ({ s with handles := Function.update s.handles hid ⟨iid, false, false⟩ }, .forwarder hid)

/-- `syncHandle.Unbind`: consume the one-time initializer; if a real bound
instrument was ever resolved, forward the `Unbind` to it. -/
def syncHandleUnbind (s : GState) (hid : Nat) : GState :=
  let h := s.handles hid
  let s1 := { s with handles := Function.update s.handles hid ⟨h.instId, true, h.delegated⟩ }
  if h.delegated then { s1 with log := s1.log ++ [.unbindEv hid] } else s1

/-- `syncHandle.RecordOne`: return if the instrument has no delegate; then
lazily resolve the real bound instrument exactly once through the one-time
initializer; if the initializer was consumed without resolving (by `Unbind`),
return; otherwise record on the real bound instrument. -/
def syncHandleRecordOne (s : GState) (hid : Nat) (n : Int) : GState :=
  let h := s.handles hid
  if (s.insts h.instId).delegated = false then s
  else if h.initialized = false then
    { s with handles := Function.update s.handles hid ⟨h.instId, true, true⟩,
             log := s.log ++ [.bindEv hid, .boundRecord hid n] }
  else if h.delegated then
    { s with log := s.log ++ [.boundRecord hid n] }
  else s

/-- The calls that `meter.setDelegate` delivers to the real implementation on
behalf of one buffered meter: one real-meter construction, then one
constructor invocation per buffered instrument. -/
def meterEvents (m : MeterObj) : List REvent :=
  REvent.newMeter m.name :: (m.syncInsts.map REvent.ctorSync ++ m.asyncInsts.map REvent.ctorAsync)

/-- An operation on the forwarding world leaves the provider's delegate slot
exactly as it found it. -/
def KeepsProvDelegated (f : GState → GState) : Prop :=
  ∀ t : GState, (f t).provDelegated = t.provDelegated

end OtelGlobal

namespace OtelSelector

/-- `core.NumberKind` of `api/core`. -/
inductive NumberKind where
  | int64Kind
  | float64Kind
  | uint64Kind
  deriving DecidableEq, Repr

/-- `metric.Kind` of `api/metric/api.go`: the three instrument kinds. -/
inductive Kind where
  | MeasureKind
  | ObserverKind
  | CounterKind
  deriving DecidableEq, Repr

/-- `metric.Descriptor` of `api/metric/api.go`, restricted to the fields the
selector consults. -/
structure Descriptor where
  name : String
  kind : Kind
  numberKind : NumberKind
  deriving DecidableEq, Repr

/-- `Descriptor.MetricKind()`. -/
def Descriptor.MetricKind (d : Descriptor) : Kind := d.kind

/-- The concrete aggregators the simple selectors can return.  A
`minmaxsumcount.New(descriptor)` and `ddsketch.New(config, descriptor)` carry
their construction arguments; the sketch configuration pointer is abstracted
as a tag. -/
inductive SimpleAggregator where
  | sumAgg
  | minMaxSumCountAgg (descriptor : Descriptor)
  | ddSketchAgg (config : Nat) (descriptor : Descriptor)
  | arrayAgg
  deriving DecidableEq, Repr

/-- The aggregation strategy of a returned aggregator, forgetting its
construction arguments. -/
def SimpleAggregator.strategy : SimpleAggregator → Nat
  | .sumAgg => 0
  | .minMaxSumCountAgg _ => 1
  | .ddSketchAgg _ _ => 2
  | .arrayAgg => 3

/-- `selectorInexpensive.AggregatorFor` of `selector/simple/simple.go`:
minmaxsumcount for Observer and Measure kinds, sum otherwise.  A `none`
result would be a nil interface, the disabled sentinel. -/
def selectorInexpensiveAggregatorFor (d : Descriptor) : Option SimpleAggregator :=
  match d.MetricKind with
  | .ObserverKind => some (.minMaxSumCountAgg d)
  | .MeasureKind => some (.minMaxSumCountAgg d)
  | _ => some .sumAgg

/-- `selectorSketch.AggregatorFor` of `selector/simple/simple.go`: ddsketch
for Observer and Measure kinds, sum otherwise. -/
def selectorSketchAggregatorFor (config : Nat) (d : Descriptor) : Option SimpleAggregator :=
  match d.MetricKind with
  | .ObserverKind => some (.ddSketchAgg config d)
  | .MeasureKind => some (.ddSketchAgg config d)
  | _ => some .sumAgg

/-- `selectorExact.AggregatorFor` of `selector/simple/simple.go`: array for
Observer and Measure kinds, sum otherwise. -/
def selectorExactAggregatorFor (d : Descriptor) : Option SimpleAggregator :=
  match d.MetricKind with
  | .ObserverKind => some .arrayAgg
  | .MeasureKind => some .arrayAgg
  | _ => some .sumAgg

end OtelSelector

namespace OtelAggregator

/-- `aggregation.ErrNoData`: the sentinel returned when an aggregator holds
no data. -/
inductive AggError where
  | errNoData
  deriving DecidableEq, Repr

/-- Modelled from the spec: the Sum aggregator (its implementation is not
under src/; `sdk/metric` spec section 4.3: one atomic number, `Update` adds,
`SynchronizedMove` atomically swaps the current value with zero).  Numbers
are taken at the int64 kind. -/
structure SumAgg where
  value : Int
  deriving DecidableEq, Repr

/-- Sum `Update`: atomic add. -/
def SumAgg.update (a : SumAgg) (n : Int) : SumAgg := ⟨a.value + n⟩

/-- Sum `SynchronizedMove`: returns the reset source (zero) and the
destination checkpoint holding the old value. -/
def SumAgg.synchronizedMove (a : SumAgg) : SumAgg × SumAgg := (⟨0⟩, ⟨a.value⟩)

/-- Sum `Sum()`: reads the accumulated value.  It never reports ErrNoData —
a never-updated sum reads as zero with no error, as pinned by
`TestSumErrUnknownValueType` in the otlp transform test, which reads a fresh
sum aggregator and requires no error. -/
def SumAgg.sumValue (a : SumAgg) : Except AggError Int := .ok a.value

/-- The `lastValueData` point of the LastValue aggregator. -/
structure LastValueData where
  value : Int
  timestamp : Nat
  deriving DecidableEq, Repr

/-- Modelled from the spec: the LastValue aggregator (its implementation is
not under src/; spec section 4.3: a (value, timestamp) pair updated via a CAS
loop comparing timestamps so the most temporally recent update wins; the
empty state signals no-data, as pinned by `checkZero` in the lastvalue
test). -/
structure LastValueAgg where
  current : Option LastValueData
  deriving DecidableEq, Repr

/-- LastValue `Update` with an explicit timestamp: the update wins only if
its timestamp is later than the stored one. -/
def LastValueAgg.update (a : LastValueAgg) (v : Int) (t : Nat) : LastValueAgg :=
  match a.current with
  | none => ⟨some ⟨v, t⟩⟩
  | some d => if d.timestamp < t then ⟨some ⟨v, t⟩⟩ else a

/-- LastValue `SynchronizedMove`: the source is reset to the unset state and
the destination receives the accumulated point. -/
def LastValueAgg.synchronizedMove (a : LastValueAgg) : LastValueAgg × LastValueAgg :=
  (⟨none⟩, a)

/-- LastValue `LastValue()`: ErrNoData on the unset state, otherwise the
stored value and timestamp. -/
def LastValueAgg.lastValue (a : LastValueAgg) : Except AggError (Int × Nat) :=
  match a.current with
  | none => .error .errNoData
  | some d => .ok (d.value, d.timestamp)

/-- LastValue `Merge`: keeps whichever of the two checkpoints has the later
timestamp, as pinned by `TestLastValueMerge`. -/
def LastValueAgg.merge (a b : LastValueAgg) : LastValueAgg :=
  match a.current, b.current with
  | none, _ => b
  | _, none => a
  | some p, some q => if p.timestamp < q.timestamp then b else a

/-- A sequence of LastValue updates applied in program order. -/
def LastValueAgg.applyUpdates (a : LastValueAgg) (us : List (Int × Nat)) : LastValueAgg :=
  us.foldl (fun acc u => acc.update u.1 u.2) a

/-- A sequence of Sum updates applied in program order. -/
def SumAgg.applyUpdates (a : SumAgg) (us : List Int) : SumAgg :=
  us.foldl SumAgg.update a

end OtelAggregator

namespace OtelSweep

/-- Modelled from the spec: a registry record as the sweep sees it (the
record registry is not under src/; `sdk/metric/doc.go` and spec section 3
describe it): a reference count and the epoch of its last update. -/
structure SweepRecord where
  refcount : Nat
  lastUpdate : Nat
  deriving DecidableEq, Repr

/-- Modelled from the spec: the registry state — the current epoch and the
live records keyed by identity. -/
structure Registry where
  epoch : Nat
  records : List (Nat × SweepRecord)
  deriving DecidableEq, Repr

/-- How a pass stamps a record: a record that received an update during the
pass carries the new current epoch as its last-update epoch. -/
def stampRecord (e : Nat) (updated : List Nat) (p : Nat × SweepRecord) :
    Nat × SweepRecord :=
  if p.1 ∈ updated then (p.1, { p.2 with lastUpdate := e }) else p

/-- Modelled from the spec: one collection pass (spec section 4.2).  The
epoch is incremented; updates observed during the pass stamp their record
with the new current epoch; the sweep then removes every record whose
reference count is zero and whose last-update epoch is strictly less than
the current epoch (equivalently, keeps records with refcount > 0 or
last-update epoch equal to the current epoch). -/
def collectPass (reg : Registry) (updated : List Nat) : Registry :=
  let e := reg.epoch + 1
  { epoch := e,
    records := (reg.records.map (stampRecord e updated)).filter
      fun p => p.2.refcount != 0 || p.2.lastUpdate == e }

/-- What the epoch/sweep discipline guarantees for a pass over `reg` with
in-pass updates `updated`, followed by a pass with updates `updated2`: the
epoch advances by exactly one; a record survives iff its reference count is
non-zero or its (stamped) last-update epoch is not stale; a zero-refcount
record `(j, q)` updated during the first pass survives that pass and is gone
after the next pass if it stays idle and unreferenced. -/
def SweepPost (reg : Registry) (updated updated2 : List Nat)
    (i : Nat) (r : SweepRecord) (j : Nat) (q : SweepRecord) : Prop :=
  (collectPass reg updated).epoch = reg.epoch + 1
  ∧ ((i, (stampRecord (reg.epoch + 1) updated (i, r)).2) ∈ (collectPass reg updated).records
      ↔ ¬((stampRecord (reg.epoch + 1) updated (i, r)).2.refcount = 0
          ∧ (stampRecord (reg.epoch + 1) updated (i, r)).2.lastUpdate < reg.epoch + 1))
  ∧ (j, { q with lastUpdate := reg.epoch + 1 }) ∈ (collectPass reg updated).records
  ∧ j ∉ ((collectPass (collectPass reg updated) updated2).records.map Prod.fst)

end OtelSweep

namespace OtelPush

/-- An error surfaced while exporting one record: the ErrNoData sentinel or
an unexpected error. -/
inductive ExportError where
  | errNoData
  | errOther (msg : String)
  deriving DecidableEq, Repr

/-- Modelled from the spec: the per-pass export iteration of the push
pipeline (the push controller, basic processor and test exporter are not
under src/; `TestPushExportError` pins the behavior): records are visited in
order; a record whose export yields ErrNoData is skipped and iteration
continues; any other error stops the iteration and is returned, so records
not yet visited are not exported. -/
def exportForEach (inject : String → Option ExportError) :
    List (String × Int) → List (String × Int) × Option ExportError
  | [] => ([], none)
  | r :: rest =>
    match inject r.1 with
    | some .errNoData => exportForEach inject rest
    | some e => ([], some e)
    | none =>
      let next := exportForEach inject rest
      (r :: next.1, next.2)

/-- The outcome of one push-controller tick: the records that reached the
exporter's output and the error handed to the global error handler. -/
structure PushOutcome where
  exported : List (String × Int)
  handlerErr : Option ExportError
  deriving DecidableEq, Repr

/-- Modelled from the spec: one push-controller tick runs collect, then
export, and routes any export error to the error handler instead of
propagating it. -/
def pushExportPass (inject : String → Option ExportError)
    (records : List (String × Int)) : PushOutcome :=
  let r := exportForEach inject records
  { exported := r.1, handlerErr := r.2 }

/-- The error injection of `TestPushExportError`: fail the record of
instrument `counter1.sum` with the given error. -/
def testInjector (e : ExportError) : String → Option ExportError :=
  fun name => if name = "counter1.sum" then some e else none

/-- The two records of `TestPushExportError`: counter1 updated by 3, counter2
updated by 5. -/
def testRecords : List (String × Int) :=
  [("counter1.sum", 3), ("counter2.sum", 5)]

end OtelPush

namespace OtelTransform

/-- `aggregation.Kind` values exercised by the transform test. -/
inductive AggregationKind where
  | sumKind
  | lastValueKind
  | minMaxSumCountKind
  | exactKind
  deriving DecidableEq, Repr

/-- The concrete aggregator a checkpointed record carries. -/
inductive ConcreteAgg where
  | sumAgg
  | lastValueAgg
  | minMaxSumCountAgg
  | exactAgg
  deriving DecidableEq, Repr

/-- Errors of the otlp transform. -/
inductive TransformError where
  | errIncompatibleAgg
  deriving DecidableEq, Repr

/-- Modelled from the spec: which aggregation reader interfaces each concrete
aggregator implements (the aggregation package is not under src/): sum
implements Sum; lastvalue implements LastValue; minmaxsumcount implements
MinMaxSumCount, whose interface includes Sum; the exact aggregator implements
Points. -/
def implementsKind : ConcreteAgg → AggregationKind → Bool
  | .sumAgg, .sumKind => true
  | .lastValueAgg, .lastValueKind => true
  | .minMaxSumCountAgg, .minMaxSumCountKind => true
  | .minMaxSumCountAgg, .sumKind => true
  | .exactAgg, .exactKind => true
  | _, _ => false

/-- The protobuf metric produced for one record, abstracted to the inputs
that determined it. -/
structure MetricOut where
  declared : AggregationKind
  agg : ConcreteAgg
  deriving DecidableEq, Repr

/-- Modelled from the spec: `transform.Record` (not under src/;
`TestRecordAggregatorIncompatibleErrors` pins it): switch on the record's
declared aggregation kind and cast the concrete aggregator to the reader
interface that kind requires; a failing cast yields ErrIncompatibleAgg and no
metric. -/
def transformRecord (declared : AggregationKind) (agg : ConcreteAgg) :
    Except TransformError MetricOut :=
  if implementsKind agg declared then .ok ⟨declared, agg⟩
  else .error .errIncompatibleAgg

/-- Transforming a whole checkpoint set: each record is transformed
independently of the others. -/
def transformCheckpointSet (rs : List (AggregationKind × ConcreteAgg)) :
    List (Except TransformError MetricOut) :=
  rs.map fun r => transformRecord r.1 r.2

end OtelTransform

namespace OtelGlobal

/-- `setDelegate` leaves the provider delegated, whatever the state. -/
def SetsProvDelegated (f : GState → GState) : Prop :=
  ∀ t : GState, (f t).provDelegated = true

/-- A second `setDelegate` on a provider that is already delegated and whose
buffered meter list is cleared is a no-op. -/
def SecondDelegationNoop : Prop :=
  ∀ t : GState, t.provDelegated = true → t.provMeters = [] →
    meterProviderSetDelegate t = t

/-- A concrete pre-delegation world for evaluating the theorems: one buffered
meter (id 0) holding one buffered synchronous instrument (id 0), and one
forwarding handle (id 0) bound from that instrument. -/
def sampleState : GState where
  provDelegated := false
  provMeters := [0]
  meters := fun _ => ⟨"m", false, [0], []⟩
  insts := fun _ => ⟨false⟩
  asyncs := fun _ => ⟨false⟩
  handles := fun _ => ⟨0, false, false⟩
  log := []

/-- What delegation guarantees for one buffered instrument `iid` of meter
`mid` and one handle `hid` bound from it before delegation: the stored
constructor ran exactly once, the instrument is delegated, `RecordOne` on the
instrument reaches the real implementation, the first `RecordOne` on the
handle binds exactly once and records, and a second `RecordOne` records again
without a second bind. -/
def DelegationRoutes (s : GState) (iid hid : Nat) (n n' : Int) : Prop :=
  (meterProviderSetDelegate s).log.count (REvent.ctorSync iid) = 1
  ∧ ((meterProviderSetDelegate s).insts iid).delegated = true
  ∧ syncImplRecordOne (meterProviderSetDelegate s) iid n
      = { meterProviderSetDelegate s with
          log := (meterProviderSetDelegate s).log ++ [REvent.record iid n] }
  ∧ syncHandleRecordOne (meterProviderSetDelegate s) hid n
      = { meterProviderSetDelegate s with
          handles := Function.update (meterProviderSetDelegate s).handles hid
            ⟨iid, true, true⟩,
          log := (meterProviderSetDelegate s).log
            ++ [REvent.bindEv hid, REvent.boundRecord hid n] }
  ∧ (syncHandleRecordOne (syncHandleRecordOne (meterProviderSetDelegate s) hid n) hid n').log
      = (meterProviderSetDelegate s).log
        ++ [REvent.bindEv hid, REvent.boundRecord hid n, REvent.boundRecord hid n']
  ∧ (syncHandleRecordOne (syncHandleRecordOne (meterProviderSetDelegate s) hid n) hid n').log.count
      (REvent.bindEv hid) = 1

/-- What `setDelegate` guarantees about the forwarders afterwards: buffered
lists cleared, later constructor-style calls short-circuit to the real
delegate, and the Undelegated-to-Delegated transition is never reversed by
any operation and is a no-op when repeated. -/
def DelegatedShortCircuits (s : GState) (mid : Nat) (name : String)
    (mid2 iid2 hid2 : Nat) (n : Int) (ms : List (Nat × Int)) : Prop :=
  (meterProviderSetDelegate s).provDelegated = true
  ∧ (meterProviderSetDelegate s).provMeters = []
  ∧ (meterProviderSetDelegate s).meters mid = ⟨(s.meters mid).name, true, [], []⟩
  ∧ meterProviderMeter (meterProviderSetDelegate s) name mid2
      = ({ meterProviderSetDelegate s with
           log := (meterProviderSetDelegate s).log ++ [REvent.newMeter name] }, .real)
  ∧ meterNewSync (meterProviderSetDelegate s) mid iid2
      = ({ meterProviderSetDelegate s with
           log := (meterProviderSetDelegate s).log ++ [REvent.ctorSync iid2] }, .real)
  ∧ meterNewAsync (meterProviderSetDelegate s) mid iid2
      = ({ meterProviderSetDelegate s with
           log := (meterProviderSetDelegate s).log ++ [REvent.ctorAsync iid2] }, .real)
  ∧ SetsProvDelegated meterProviderSetDelegate
  ∧ SecondDelegationNoop
  ∧ KeepsProvDelegated (fun u => (meterProviderMeter u name mid2).1)
  ∧ KeepsProvDelegated (fun u => (meterNewSync u mid iid2).1)
  ∧ KeepsProvDelegated (fun u => (meterNewAsync u mid iid2).1)
  ∧ KeepsProvDelegated (fun u => (syncImplBind u iid2 hid2).1)
  ∧ KeepsProvDelegated (fun u => syncImplRecordOne u iid2 n)
  ∧ KeepsProvDelegated (fun u => meterRecordBatch u mid ms)
  ∧ KeepsProvDelegated (fun u => syncHandleUnbind u hid2)
  ∧ KeepsProvDelegated (fun u => syncHandleRecordOne u hid2 n)
  ∧ KeepsProvDelegated (fun u => meterSetDelegate u mid)
  ∧ KeepsProvDelegated (fun u => syncImplSetDelegate u iid2)
  ∧ KeepsProvDelegated (fun u => obsImplSetDelegate u iid2)

/-- What an `Unbind` before delegation does to a handle: after delegation the
instrument is live, but the handle's one-time initializer was consumed with a
nil delegate, so `RecordOne` on the handle is a complete no-op. -/
def UnboundHandleDead (s : GState) (iid hid : Nat) (n : Int) : Prop :=
  ((meterProviderSetDelegate (syncHandleUnbind s hid)).insts iid).delegated = true
  ∧ (meterProviderSetDelegate (syncHandleUnbind s hid)).handles hid = ⟨iid, true, false⟩
  ∧ syncHandleRecordOne (meterProviderSetDelegate (syncHandleUnbind s hid)) hid n
      = meterProviderSetDelegate (syncHandleUnbind s hid)

end OtelGlobal

/-! ## Lemmas about the global delegation model -/

namespace OtelGlobal

theorem foldl_syncImplSetDelegate (iids : List Nat) (s : GState) :
    iids.foldl syncImplSetDelegate s = { s with
      insts := fun i => if i ∈ iids then ⟨true⟩ else s.insts i,
      log := s.log ++ iids.map REvent.ctorSync } := by
  induction iids generalizing s with
  | nil =>
    ext <;> simp
  | cons a t ih =>
    rw [List.foldl_cons, ih]
    ext i <;> simp [syncImplSetDelegate]
    by_cases h1 : i = a <;> by_cases h2 : i ∈ t <;>
      simp [Function.update_apply, h1, h2]

theorem foldl_obsImplSetDelegate (iids : List Nat) (s : GState) :
    iids.foldl obsImplSetDelegate s = { s with
      asyncs := fun i => if i ∈ iids then ⟨true⟩ else s.asyncs i,
      log := s.log ++ iids.map REvent.ctorAsync } := by
  induction iids generalizing s with
  | nil =>
    ext <;> simp
  | cons a t ih =>
    rw [List.foldl_cons, ih]
    ext i <;> simp [obsImplSetDelegate]
    by_cases h1 : i = a <;> by_cases h2 : i ∈ t <;>
      simp [Function.update_apply, h1, h2]

theorem meterSetDelegate_eq (s : GState) (mid : Nat) :
    meterSetDelegate s mid = { s with
      meters := Function.update s.meters mid ⟨(s.meters mid).name, true, [], []⟩,
      insts := fun i => if i ∈ (s.meters mid).syncInsts then ⟨true⟩ else s.insts i,
      asyncs := fun i => if i ∈ (s.meters mid).asyncInsts then ⟨true⟩ else s.asyncs i,
      log := s.log ++ meterEvents (s.meters mid) } := by
  simp only [meterSetDelegate, foldl_syncImplSetDelegate, foldl_obsImplSetDelegate]
  ext <;> simp [meterEvents]

end OtelGlobal

namespace OtelGlobal

theorem foldl_meterSetDelegate_provDelegated (mids : List Nat) (s : GState) :
    (mids.foldl meterSetDelegate s).provDelegated = s.provDelegated := by
  induction mids generalizing s with
  | nil => rfl
  | cons a t ih => rw [List.foldl_cons, ih, meterSetDelegate_eq]

theorem foldl_meterSetDelegate_provMeters (mids : List Nat) (s : GState) :
    (mids.foldl meterSetDelegate s).provMeters = s.provMeters := by
  induction mids generalizing s with
  | nil => rfl
  | cons a t ih => rw [List.foldl_cons, ih, meterSetDelegate_eq]

theorem foldl_meterSetDelegate_handles (mids : List Nat) (s : GState) :
    (mids.foldl meterSetDelegate s).handles = s.handles := by
  induction mids generalizing s with
  | nil => rfl
  | cons a t ih => rw [List.foldl_cons, ih, meterSetDelegate_eq]

theorem foldl_meterSetDelegate_meters_not_mem (mids : List Nat) (s : GState)
    (mid : Nat) (hmid : mid ∉ mids) :
    (mids.foldl meterSetDelegate s).meters mid = s.meters mid := by
  induction mids generalizing s with
  | nil => rfl
  | cons a t ih =>
    rw [List.foldl_cons, ih _ (fun hc => hmid (List.mem_cons_of_mem a hc)),
      meterSetDelegate_eq]
    have hne : mid ≠ a := fun hc => hmid (hc ▸ List.mem_cons_self a t)
    simp [Function.update_apply, hne]

theorem foldl_meterSetDelegate_log (mids : List Nat) (s : GState)
    (hnd : mids.Nodup) :
    (mids.foldl meterSetDelegate s).log
      = s.log ++ (mids.map fun mid => meterEvents (s.meters mid)).flatten := by
  induction mids generalizing s with
  | nil => simp
  | cons a t ih =>
    rw [List.foldl_cons, ih _ (List.Nodup.of_cons hnd)]
    have ha : a ∉ t := (List.nodup_cons.mp hnd).1
    have hmeq : ∀ mid ∈ t, (meterSetDelegate s a).meters mid = s.meters mid := by
      intro mid hmid
      rw [meterSetDelegate_eq]
      have hne : mid ≠ a := fun hc => ha (hc ▸ hmid)
      simp [Function.update_apply, hne]
    have hmap : t.map (fun mid => meterEvents ((meterSetDelegate s a).meters mid))
        = t.map fun mid => meterEvents (s.meters mid) :=
      List.map_congr_left fun mid hmid => by rw [hmeq mid hmid]
    rw [hmap, meterSetDelegate_eq]
    simp

theorem foldl_meterSetDelegate_meters_mem (mids : List Nat) (s : GState)
    (hnd : mids.Nodup) (mid : Nat) (hmid : mid ∈ mids) :
    (mids.foldl meterSetDelegate s).meters mid
      = ⟨(s.meters mid).name, true, [], []⟩ := by
  induction mids generalizing s with
  | nil => cases hmid
  | cons a t ih =>
    rw [List.foldl_cons]
    have ha : a ∉ t := (List.nodup_cons.mp hnd).1
    rcases List.mem_cons.mp hmid with heq | hmem
    · subst heq
      rw [foldl_meterSetDelegate_meters_not_mem t _ mid ha, meterSetDelegate_eq]
      simp
    · rw [ih _ (List.Nodup.of_cons hnd) hmem, meterSetDelegate_eq]
      have hne : mid ≠ a := fun hc => ha (hc ▸ hmem)
      simp [Function.update_apply, hne]

theorem foldl_meterSetDelegate_insts_mono (mids : List Nat) (s : GState)
    (i : Nat) :
    (mids.foldl meterSetDelegate s).insts i = s.insts i
      ∨ (mids.foldl meterSetDelegate s).insts i = ⟨true⟩ := by
  induction mids generalizing s with
  | nil => exact Or.inl rfl
  | cons a t ih =>
    rw [List.foldl_cons]
    rcases ih (meterSetDelegate s a) with h | h
    · rw [h, meterSetDelegate_eq]
      by_cases hi : i ∈ (s.meters a).syncInsts
      · exact Or.inr (by simp [hi])
      · exact Or.inl (by simp [hi])
    · exact Or.inr h

theorem foldl_meterSetDelegate_insts_mem (mids : List Nat) (s : GState)
    (hnd : mids.Nodup) (mid i : Nat) (hmid : mid ∈ mids)
    (hi : i ∈ (s.meters mid).syncInsts) :
    (mids.foldl meterSetDelegate s).insts i = ⟨true⟩ := by
  induction mids generalizing s with
  | nil => cases hmid
  | cons a t ih =>
    rw [List.foldl_cons]
    have ha : a ∉ t := (List.nodup_cons.mp hnd).1
    rcases List.mem_cons.mp hmid with heq | hmem
    · subst heq
      have hset : (meterSetDelegate s mid).insts i = ⟨true⟩ := by
        rw [meterSetDelegate_eq]; simp [hi]
      rcases foldl_meterSetDelegate_insts_mono t (meterSetDelegate s mid) i with h | h
      · rw [h, hset]
      · exact h
    · have hne : mid ≠ a := fun hc => ha (hc ▸ hmem)
      have hmeq : (meterSetDelegate s a).meters mid = s.meters mid := by
        rw [meterSetDelegate_eq]; simp [Function.update_apply, hne]
      exact ih _ (List.Nodup.of_cons hnd) hmem (hmeq ▸ hi)

end OtelGlobal

namespace OtelGlobal

theorem count_ctorSync_map_ctorSync (l : List Nat) (i : Nat) :
    (l.map REvent.ctorSync).count (REvent.ctorSync i) = l.count i := by
  induction l with
  | nil => rfl
  | cons a t ih =>
    simp only [List.map_cons, List.count_cons, ih]
    by_cases h : a = i <;> simp [h]

theorem count_ctorSync_map_ctorAsync (l : List Nat) (i : Nat) :
    (l.map REvent.ctorAsync).count (REvent.ctorSync i) = 0 := by
  induction l with
  | nil => rfl
  | cons a t ih => simp [List.count_cons, ih]

theorem count_ctorSync_meterEvents (m : MeterObj) (i : Nat) :
    (meterEvents m).count (REvent.ctorSync i) = m.syncInsts.count i := by
  simp [meterEvents, List.count_cons, List.count_append,
    count_ctorSync_map_ctorSync, count_ctorSync_map_ctorAsync]

theorem count_flatten {α : Type} [DecidableEq α] (ls : List (List α)) (a : α) :
    ls.flatten.count a = (ls.map fun l => l.count a).sum := by
  induction ls with
  | nil => rfl
  | cons x t ih => simp [List.count_append, ih]

theorem count_ctorSync_eventFlatten (mids : List Nat) (ms : Nat → MeterObj) (i : Nat) :
    ((mids.map fun mid => meterEvents (ms mid)).flatten).count (REvent.ctorSync i)
      = ((mids.map fun mid => (ms mid).syncInsts).flatten).count i := by
  induction mids with
  | nil => rfl
  | cons a t ih =>
    simp only [List.map_cons, List.flatten_cons, List.count_append, ih,
      count_ctorSync_meterEvents]

theorem nodup_count_eq_one {α : Type} [DecidableEq α] (l : List α) (a : α)
    (hnd : l.Nodup) (ha : a ∈ l) : l.count a = 1 := by
  induction l with
  | nil => cases ha
  | cons x t ih =>
    rcases List.mem_cons.mp ha with heq | hmem
    · subst heq
      have hx : a ∉ t := (List.nodup_cons.mp hnd).1
      simp [List.count_cons, List.count_eq_zero.mpr hx]
    · have hx : x ∉ t := (List.nodup_cons.mp hnd).1
      have hne : a ≠ x := fun hc => hx (hc ▸ hmem)
      simp [List.count_cons, ih (List.Nodup.of_cons hnd) hmem, hne]

theorem count_bindEv_meterEvents (m : MeterObj) (hid : Nat) :
    (meterEvents m).count (REvent.bindEv hid) = 0 := by
  have hs : (m.syncInsts.map REvent.ctorSync).count (REvent.bindEv hid) = 0 := by
    induction m.syncInsts with
    | nil => rfl
    | cons a t ih => simp [List.count_cons, ih]
  have ha : (m.asyncInsts.map REvent.ctorAsync).count (REvent.bindEv hid) = 0 := by
    induction m.asyncInsts with
    | nil => rfl
    | cons a t ih => simp [List.count_cons, ih]
  simp [meterEvents, List.count_cons, List.count_append, hs, ha]

theorem count_bindEv_eventFlatten (mids : List Nat) (ms : Nat → MeterObj) (hid : Nat) :
    ((mids.map fun mid => meterEvents (ms mid)).flatten).count (REvent.bindEv hid) = 0 := by
  induction mids with
  | nil => rfl
  | cons a t ih =>
    simp only [List.map_cons, List.flatten_cons, List.count_append, ih,
      count_bindEv_meterEvents]

end OtelGlobal

namespace OtelGlobal

theorem setDelegate_unfold (s : GState) :
    meterProviderSetDelegate s
      = { s.provMeters.foldl meterSetDelegate { s with provDelegated := true } with
          provMeters := [] } := rfl

theorem setDelegate_log (s : GState) (hndM : s.provMeters.Nodup) :
    (meterProviderSetDelegate s).log
      = s.log ++ (s.provMeters.map fun m => meterEvents (s.meters m)).flatten := by
  rw [setDelegate_unfold]
  show (s.provMeters.foldl meterSetDelegate { s with provDelegated := true }).log = _
  exact foldl_meterSetDelegate_log _ _ hndM

theorem setDelegate_handles (s : GState) :
    (meterProviderSetDelegate s).handles = s.handles := by
  rw [setDelegate_unfold]
  show (s.provMeters.foldl meterSetDelegate { s with provDelegated := true }).handles = _
  exact foldl_meterSetDelegate_handles _ _

theorem setDelegate_insts_mem (s : GState) (hndM : s.provMeters.Nodup)
    (mid iid : Nat) (hm : mid ∈ s.provMeters)
    (hi : iid ∈ (s.meters mid).syncInsts) :
    (meterProviderSetDelegate s).insts iid = ⟨true⟩ := by
  rw [setDelegate_unfold]
  show (s.provMeters.foldl meterSetDelegate { s with provDelegated := true }).insts iid = _
  exact foldl_meterSetDelegate_insts_mem s.provMeters _ hndM mid iid hm hi

theorem setDelegate_meters_mem (s : GState) (hndM : s.provMeters.Nodup)
    (mid : Nat) (hm : mid ∈ s.provMeters) :
    (meterProviderSetDelegate s).meters mid = ⟨(s.meters mid).name, true, [], []⟩ := by
  rw [setDelegate_unfold]
  show (s.provMeters.foldl meterSetDelegate { s with provDelegated := true }).meters mid = _
  exact foldl_meterSetDelegate_meters_mem s.provMeters _ hndM mid hm

/-- C1: every meter, synchronous instrument and bound handle constructed
through the global forwarding provider before the delegate is installed is,
after `setDelegate`, routed to the real implementation: the stored
constructor is invoked exactly once per buffered instrument, a subsequent
`RecordOne` on the instrument reaches the real implementation, a handle
resolves its real bound instrument exactly once via its one-time
initializer, and no event recorded after delegation is dropped and no
instrument is bound twice. -/
theorem C1_global_delegation_routes (s : GState) (mid iid hid : Nat) (n n' : Int)
    (hundel : s.provDelegated = false)
    (hlog : s.log = [])
    (hndM : s.provMeters.Nodup)
    (hndI : ((s.provMeters.map fun m => (s.meters m).syncInsts).flatten).Nodup)
    (hm : mid ∈ s.provMeters)
    (hi : iid ∈ (s.meters mid).syncInsts)
    (hh : s.handles hid = ⟨iid, false, false⟩) :
    DelegationRoutes s iid hid n n' := by
  have hinst : (meterProviderSetDelegate s).insts iid = ⟨true⟩ :=
    setDelegate_insts_mem s hndM mid iid hm hi
  have hlogC : (meterProviderSetDelegate s).log
      = (s.provMeters.map fun m => meterEvents (s.meters m)).flatten := by
    rw [setDelegate_log s hndM, hlog, List.nil_append]
  have hhandles : (meterProviderSetDelegate s).handles hid = ⟨iid, false, false⟩ := by
    rw [setDelegate_handles s, hh]
  have hcount : (meterProviderSetDelegate s).log.count (REvent.ctorSync iid) = 1 := by
    rw [hlogC, count_ctorSync_eventFlatten]
    exact nodup_count_eq_one _ _ hndI
      (List.mem_flatten.mpr ⟨(s.meters mid).syncInsts, List.mem_map_of_mem _ hm, hi⟩)
  have hbind0 : (meterProviderSetDelegate s).log.count (REvent.bindEv hid) = 0 := by
    rw [hlogC, count_bindEv_eventFlatten]
  have hr1 : syncHandleRecordOne (meterProviderSetDelegate s) hid n
      = { meterProviderSetDelegate s with
          handles := Function.update (meterProviderSetDelegate s).handles hid
            ⟨iid, true, true⟩,
          log := (meterProviderSetDelegate s).log
            ++ [REvent.bindEv hid, REvent.boundRecord hid n] } := by
    simp [syncHandleRecordOne, hhandles, hinst]
  have hr2 : syncHandleRecordOne (syncHandleRecordOne (meterProviderSetDelegate s) hid n) hid n'
      = { meterProviderSetDelegate s with
          handles := Function.update (meterProviderSetDelegate s).handles hid
            ⟨iid, true, true⟩,
          log := ((meterProviderSetDelegate s).log
            ++ [REvent.bindEv hid, REvent.boundRecord hid n]) ++ [REvent.boundRecord hid n'] } := by
    rw [hr1]
    simp [syncHandleRecordOne, hinst, Function.update_same]
  refine ⟨hcount, by rw [hinst], ?_, hr1, ?_, ?_⟩
  · simp [syncImplRecordOne, hinst]
  · rw [hr2]
    simp
  · rw [hr2]
    simp [List.count_append, hbind0]

end OtelGlobal

namespace OtelGlobal

theorem C1_global_delegation_routes_witness :
    (sampleState.provDelegated = false
      ∧ sampleState.log = []
      ∧ sampleState.provMeters.Nodup
      ∧ ((sampleState.provMeters.map fun m => (sampleState.meters m).syncInsts).flatten).Nodup
      ∧ 0 ∈ sampleState.provMeters
      ∧ 0 ∈ (sampleState.meters 0).syncInsts
      ∧ sampleState.handles 0 = ⟨0, false, false⟩)
    ∧ DelegationRoutes sampleState 0 0 5 7 :=
  ⟨⟨rfl, rfl, by decide, by decide, by decide, by decide, rfl⟩,
   C1_global_delegation_routes sampleState 0 0 0 5 7 rfl rfl (by decide) (by decide)
     (by decide) (by decide) rfl⟩

/-- C6: before any delegate is installed, `RecordOne` on a forwarding
synchronous instrument and `RecordBatch` on a forwarding meter are complete
no-ops: they return leaving the whole forwarding world, hence every field of
the provider, meter, instrument and handle state, unchanged, and deliver
nothing to any real implementation. -/
theorem C6_noop_before_delegation (s : GState) (iid mid : Nat) (n : Int)
    (ms : List (Nat × Int))
    (hi : (s.insts iid).delegated = false)
    (hm : (s.meters mid).delegated = false) :
    syncImplRecordOne s iid n = s ∧ meterRecordBatch s mid ms = s := by
  constructor
  · simp [syncImplRecordOne, hi]
  · simp [meterRecordBatch, hm]

theorem C6_noop_before_delegation_witness :
    ((sampleState.insts 0).delegated = false
      ∧ (sampleState.meters 0).delegated = false)
    ∧ (syncImplRecordOne sampleState 0 3 = sampleState
      ∧ meterRecordBatch sampleState 0 [(0, 1)] = sampleState) :=
  ⟨⟨rfl, rfl⟩, C6_noop_before_delegation sampleState 0 0 3 [(0, 1)] rfl rfl⟩

/-- C7: after `setDelegate` completes, the provider's buffered meter list and
each buffered meter's sync and async instrument lists are cleared, later
`Meter` and instrument-constructor calls return results obtained directly
from the real delegate instead of new buffering forwarders, and the
Undelegated-to-Delegated transition is made exactly once: repeating it is a
no-op and no operation of the model ever reverses it. -/
theorem C7_delegation_clears_and_short_circuits (s : GState) (mid : Nat)
    (name : String) (mid2 iid2 hid2 : Nat) (n : Int) (ms : List (Nat × Int))
    (hundel : s.provDelegated = false)
    (hndM : s.provMeters.Nodup)
    (hm : mid ∈ s.provMeters) :
    DelegatedShortCircuits s mid name mid2 iid2 hid2 n ms := by
  have h1 : (meterProviderSetDelegate s).provDelegated = true := by
    rw [setDelegate_unfold]
    show (s.provMeters.foldl meterSetDelegate { s with provDelegated := true }).provDelegated = true
    rw [foldl_meterSetDelegate_provDelegated]
  have h3 : (meterProviderSetDelegate s).meters mid
      = ⟨(s.meters mid).name, true, [], []⟩ := setDelegate_meters_mem s hndM mid hm
  refine ⟨h1, rfl, h3, ?_, ?_, ?_, ?_, ?_, ?_, ?_, ?_, ?_, ?_, ?_, ?_, ?_, ?_, ?_, ?_⟩
  · simp [meterProviderMeter, h1]
  · simp [meterNewSync, h3]
  · simp [meterNewAsync, h3]
  · intro t
    rw [setDelegate_unfold]
    show (t.provMeters.foldl meterSetDelegate { t with provDelegated := true }).provDelegated = true
    rw [foldl_meterSetDelegate_provDelegated]
  · intro t ht1 ht2
    rw [setDelegate_unfold, ht2]
    ext <;> simp [ht1, ht2]
  · intro t
    by_cases h : t.provDelegated <;> simp [meterProviderMeter, h]
  · intro t
    by_cases h : (t.meters mid).delegated <;> simp [meterNewSync, h]
  · intro t
    by_cases h : (t.meters mid).delegated <;> simp [meterNewAsync, h]
  · intro t
    by_cases h : (t.insts iid2).delegated <;> simp [syncImplBind, h]
  · intro t
    by_cases h : (t.insts iid2).delegated <;> simp [syncImplRecordOne, h]
  · intro t
    by_cases h : (t.meters mid).delegated <;> simp [meterRecordBatch, h]
  · intro t
    by_cases h : (t.handles hid2).delegated <;> simp [syncHandleUnbind, h]
  · intro t
    simp only [syncHandleRecordOne]
    split
    · rfl
    · split
      · rfl
      · split <;> rfl
  · intro t
    show (meterSetDelegate t mid).provDelegated = t.provDelegated
    rw [meterSetDelegate_eq]
  · intro t
    rfl
  · intro t
    rfl

theorem C7_delegation_clears_and_short_circuits_witness :
    (sampleState.provDelegated = false
      ∧ sampleState.provMeters.Nodup
      ∧ 0 ∈ sampleState.provMeters)
    ∧ DelegatedShortCircuits sampleState 0 "x" 1 1 1 3 [(0, 2)] :=
  ⟨⟨rfl, by decide, by decide⟩,
   C7_delegation_clears_and_short_circuits sampleState 0 "x" 1 1 1 3 [(0, 2)]
     rfl (by decide) (by decide)⟩

/-- C10: if a handle bound from an undelegated global instrument is unbound
before the delegate is installed, then after delegation the instrument is
live but every `RecordOne` on that handle returns silently: the state is
unchanged, so nothing is recorded and the real implementation is never
bound, because `Unbind` consumed the one-time initializer while the delegate
pointer was still nil. -/
theorem C10_unbound_handle_silent (s : GState) (mid iid hid : Nat) (n : Int)
    (hundel : s.provDelegated = false)
    (hndM : s.provMeters.Nodup)
    (hm : mid ∈ s.provMeters)
    (hi : iid ∈ (s.meters mid).syncInsts)
    (hh : s.handles hid = ⟨iid, false, false⟩) :
    UnboundHandleDead s iid hid n := by
  have hs1eq : syncHandleUnbind s hid
      = { s with handles := Function.update s.handles hid ⟨iid, true, false⟩ } := by
    simp [syncHandleUnbind, hh]
  have hinst : (meterProviderSetDelegate (syncHandleUnbind s hid)).insts iid = ⟨true⟩ := by
    apply setDelegate_insts_mem (syncHandleUnbind s hid) _ mid iid
    · rw [hs1eq]
      exact hm
    · rw [hs1eq]
      exact hi
    · rw [hs1eq]
      exact hndM
  have hhand : (meterProviderSetDelegate (syncHandleUnbind s hid)).handles hid
      = ⟨iid, true, false⟩ := by
    rw [setDelegate_handles, hs1eq]
    simp
  exact ⟨by rw [hinst], hhand, by simp [syncHandleRecordOne, hhand, hinst]⟩

theorem C10_unbound_handle_silent_witness :
    (sampleState.provDelegated = false
      ∧ sampleState.provMeters.Nodup
      ∧ 0 ∈ sampleState.provMeters
      ∧ 0 ∈ (sampleState.meters 0).syncInsts
      ∧ sampleState.handles 0 = ⟨0, false, false⟩)
    ∧ UnboundHandleDead sampleState 0 0 4 :=
  ⟨⟨rfl, by decide, by decide, by decide, rfl⟩,
   C10_unbound_handle_silent sampleState 0 0 0 4 rfl (by decide) (by decide)
     (by decide) rfl⟩

end OtelGlobal

/-! ## The simple aggregation selectors -/

namespace OtelSelector

/-- C9: each simple selector's `AggregatorFor` is total (never the disabled
nil sentinel) and its choice of aggregation strategy depends only on the
descriptor's metric kind: the inexpensive selector picks MinMaxSumCount for
Measure and Observer kinds and Sum otherwise; the sketch selector picks
DDSketch for Measure and Observer kinds and Sum otherwise; the exact
selector picks the array aggregator for Measure and Observer kinds and Sum
otherwise. -/
theorem C9_simple_selectors_total_kind_determined (d : Descriptor) (config : Nat) :
    selectorInexpensiveAggregatorFor d
      = some (match d.kind with
          | .MeasureKind => .minMaxSumCountAgg d
          | .ObserverKind => .minMaxSumCountAgg d
          | .CounterKind => .sumAgg)
    ∧ selectorSketchAggregatorFor config d
      = some (match d.kind with
          | .MeasureKind => .ddSketchAgg config d
          | .ObserverKind => .ddSketchAgg config d
          | .CounterKind => .sumAgg)
    ∧ selectorExactAggregatorFor d
      = some (match d.kind with
          | .MeasureKind => .arrayAgg
          | .ObserverKind => .arrayAgg
          | .CounterKind => .sumAgg)
    ∧ selectorInexpensiveAggregatorFor d ≠ none
    ∧ selectorSketchAggregatorFor config d ≠ none
    ∧ selectorExactAggregatorFor d ≠ none
    ∧ (selectorInexpensiveAggregatorFor d).map SimpleAggregator.strategy
      = some (match d.kind with
          | .MeasureKind => 1 | .ObserverKind => 1 | .CounterKind => 0)
    ∧ (selectorSketchAggregatorFor config d).map SimpleAggregator.strategy
      = some (match d.kind with
          | .MeasureKind => 2 | .ObserverKind => 2 | .CounterKind => 0)
    ∧ (selectorExactAggregatorFor d).map SimpleAggregator.strategy
      = some (match d.kind with
          | .MeasureKind => 3 | .ObserverKind => 3 | .CounterKind => 0) := by
  obtain ⟨nm, k, nk⟩ := d
  cases k <;>
    simp [selectorInexpensiveAggregatorFor, selectorSketchAggregatorFor,
      selectorExactAggregatorFor, Descriptor.MetricKind, SimpleAggregator.strategy]

end OtelSelector

/-! ## Aggregator checkpoint and last-value semantics -/

namespace OtelAggregator

theorem lastValue_update_isSome (a : LastValueAgg) (v : Int) (t : Nat) :
    ((a.update v t).current).isSome = true := by
  unfold LastValueAgg.update
  match h : a.current with
  | none => rfl
  | some d =>
    by_cases hlt : d.timestamp < t <;> simp [hlt, h]

theorem lastValue_applyUpdates_isSome (us : List (Int × Nat)) (a : LastValueAgg)
    (ha : a.current.isSome = true) :
    ((a.applyUpdates us).current).isSome = true := by
  induction us generalizing a with
  | nil => exact ha
  | cons u rest ih =>
    exact ih (a.update u.1 u.2) (lastValue_update_isSome a u.1 u.2)

theorem sum_applyUpdates_value (vs : List Int) (a : SumAgg) :
    (a.applyUpdates vs).value = a.value + vs.sum := by
  induction vs generalizing a with
  | nil => simp [SumAgg.applyUpdates]
  | cons v rest ih =>
    show ((a.update v).applyUpdates rest).value = _
    rw [ih]
    simp [SumAgg.update]
    ring

/-- C4 as stated fails on the Sum aggregator: after one update and a first
`SynchronizedMove`, a second `SynchronizedMove` with no intervening update
yields a checkpoint whose read returns the zero value with no error — not
ErrNoData, because the sum aggregator has no distinct empty state. -/
theorem C4_counterexample_sum_not_errNoData :
    (((SumAgg.update ⟨0⟩ 5).synchronizedMove.1).synchronizedMove.2).sumValue = .ok 0
    ∧ (((SumAgg.update ⟨0⟩ 5).synchronizedMove.1).synchronizedMove.2).sumValue
        ≠ .error AggError.errNoData
    ∧ ((SumAgg.update ⟨0⟩ 5).synchronizedMove.2).sumValue = .ok 5 := by
  refine ⟨rfl, ?_, rfl⟩
  intro hc
  simp [SumAgg.update, SumAgg.synchronizedMove, SumAgg.sumValue] at hc

/-- C4 amended: calling `SynchronizedMove` twice in a row with no intervening
`Update` yields the accumulated data on the first checkpoint and the
empty/identity state on the second, because `SynchronizedMove` resets the
source: for LastValue (which has a distinct empty state) the second
checkpoint's read returns ErrNoData, while for Sum the second checkpoint
reads zero with no error. -/
theorem C4_amended_double_synchronizedMove (us : List (Int × Nat)) (vs : List Int)
    (hne : us ≠ []) :
    (((LastValueAgg.mk none).applyUpdates us).synchronizedMove.2).current.isSome = true
    ∧ ((((LastValueAgg.mk none).applyUpdates us).synchronizedMove.1).synchronizedMove.2).lastValue
        = .error AggError.errNoData
    ∧ (((SumAgg.mk 0).applyUpdates vs).synchronizedMove.2).value = vs.sum
    ∧ ((((SumAgg.mk 0).applyUpdates vs).synchronizedMove.1).synchronizedMove.2).sumValue
        = .ok 0 := by
  refine ⟨?_, rfl, ?_, rfl⟩
  · match us, hne with
    | u :: rest, _ =>
      show (((LastValueAgg.mk none).update u.1 u.2).applyUpdates rest).current.isSome = true
      exact lastValue_applyUpdates_isSome rest _ (lastValue_update_isSome _ u.1 u.2)
  · show ((SumAgg.mk 0).applyUpdates vs).value = vs.sum
    rw [sum_applyUpdates_value]
    simp

theorem C4_amended_double_synchronizedMove_witness :
    ([((3 : Int), (1 : Nat))] ≠ [])
    ∧ ((((LastValueAgg.mk none).applyUpdates [(3, 1)]).synchronizedMove.2).current.isSome = true
      ∧ ((((LastValueAgg.mk none).applyUpdates [(3, 1)]).synchronizedMove.1).synchronizedMove.2).lastValue
          = .error AggError.errNoData
      ∧ (((SumAgg.mk 0).applyUpdates [5]).synchronizedMove.2).value = List.sum [5]
      ∧ ((((SumAgg.mk 0).applyUpdates [5]).synchronizedMove.1).synchronizedMove.2).sumValue
          = .ok 0) :=
  ⟨by decide, C4_amended_double_synchronizedMove [(3, 1)] [5] (by decide)⟩

/-- C5: for the LastValue aggregator, two updates carrying timestamps
t1 < t2 applied in either program order leave the later-timestamp value as
the checkpointed value after `SynchronizedMove`, and merging two LastValue
checkpoints keeps the value and timestamp of whichever checkpoint has the
later timestamp, in either merge order. -/
theorem C5_lastvalue_max_timestamp_wins (v1 v2 : Int) (t1 t2 : Nat)
    (hlt : t1 < t2) :
    (((LastValueAgg.mk none).update v1 t1).update v2 t2).synchronizedMove.2.lastValue
      = .ok (v2, t2)
    ∧ (((LastValueAgg.mk none).update v2 t2).update v1 t1).synchronizedMove.2.lastValue
      = .ok (v2, t2)
    ∧ LastValueAgg.merge ⟨some ⟨v1, t1⟩⟩ ⟨some ⟨v2, t2⟩⟩ = ⟨some ⟨v2, t2⟩⟩
    ∧ LastValueAgg.merge ⟨some ⟨v2, t2⟩⟩ ⟨some ⟨v1, t1⟩⟩ = ⟨some ⟨v2, t2⟩⟩ := by
  have hnlt : ¬(t2 < t1) := Nat.not_lt.mpr (Nat.le_of_lt hlt)
  refine ⟨?_, ?_, ?_, ?_⟩
  · simp [LastValueAgg.update, LastValueAgg.synchronizedMove,
      LastValueAgg.lastValue, hlt]
  · simp [LastValueAgg.update, LastValueAgg.synchronizedMove,
      LastValueAgg.lastValue, hnlt]
  · simp [LastValueAgg.merge, hlt]
  · simp [LastValueAgg.merge, hnlt]

theorem C5_lastvalue_max_timestamp_wins_witness :
    ((1 : Nat) < 2)
    ∧ ((((LastValueAgg.mk none).update 10 1).update 20 2).synchronizedMove.2.lastValue
        = .ok (20, 2)
      ∧ (((LastValueAgg.mk none).update 20 2).update 10 1).synchronizedMove.2.lastValue
        = .ok (20, 2)
      ∧ LastValueAgg.merge ⟨some ⟨10, 1⟩⟩ ⟨some ⟨20, 2⟩⟩ = ⟨some ⟨20, 2⟩⟩
      ∧ LastValueAgg.merge ⟨some ⟨20, 2⟩⟩ ⟨some ⟨10, 1⟩⟩ = ⟨some ⟨20, 2⟩⟩) :=
  ⟨by decide, C5_lastvalue_max_timestamp_wins 10 20 1 2 (by decide)⟩

end OtelAggregator

/-! ## The epoch/sweep discipline of the record registry -/

namespace OtelSweep

theorem stampRecord_fst (e : Nat) (u : List Nat) (p : Nat × SweepRecord) :
    (stampRecord e u p).1 = p.1 := by
  unfold stampRecord
  split <;> rfl

theorem stampRecord_pair (e : Nat) (u : List Nat) (p : Nat × SweepRecord) :
    stampRecord e u p = (p.1, (stampRecord e u p).2) := by
  unfold stampRecord
  split <;> rfl

theorem collectPass_records (reg : Registry) (u : List Nat) :
    (collectPass reg u).records
      = (reg.records.map (stampRecord (reg.epoch + 1) u)).filter
          (fun p => p.2.refcount != 0 || p.2.lastUpdate == reg.epoch + 1) := rfl

theorem nodup_key_unique {α β : Type} [DecidableEq α] {l : List (α × β)}
    (hnd : (l.map Prod.fst).Nodup) {i : α} {a b : β}
    (ha : (i, a) ∈ l) (hb : (i, b) ∈ l) : a = b := by
  induction l with
  | nil => cases ha
  | cons p t ih =>
    rw [List.map_cons] at hnd
    have hhead : p.1 ∉ t.map Prod.fst := (List.nodup_cons.mp hnd).1
    have htail : (t.map Prod.fst).Nodup := (List.nodup_cons.mp hnd).2
    rcases List.mem_cons.mp ha with h1 | h1 <;> rcases List.mem_cons.mp hb with h2 | h2
    · rw [← h1] at h2
      exact ((Prod.mk.injEq _ _ _ _).mp h2).2.symm
    · exfalso
      apply hhead
      have hp1 : p.1 = i := by rw [← h1]
      rw [hp1]
      exact List.mem_map_of_mem Prod.fst h2
    · exfalso
      apply hhead
      have hp1 : p.1 = i := by rw [← h2]
      rw [hp1]
      exact List.mem_map_of_mem Prod.fst h1
    · exact ih htail h1 h2

theorem collectPass_keys_nodup (reg : Registry) (u : List Nat)
    (hnd : (reg.records.map Prod.fst).Nodup) :
    ((collectPass reg u).records.map Prod.fst).Nodup := by
  rw [collectPass_records]
  have hmapfst : (reg.records.map (stampRecord (reg.epoch + 1) u)).map Prod.fst
      = reg.records.map Prod.fst := by
    rw [List.map_map]
    exact List.map_congr_left fun p _ => stampRecord_fst _ _ p
  have hsub : List.Sublist
      (((reg.records.map (stampRecord (reg.epoch + 1) u)).filter
        (fun p => p.2.refcount != 0 || p.2.lastUpdate == reg.epoch + 1)).map Prod.fst)
      ((reg.records.map (stampRecord (reg.epoch + 1) u)).map Prod.fst) :=
    (List.filter_sublist _).map Prod.fst
  rw [hmapfst] at hsub
  exact hsub.nodup hnd

/-- C3: the collection epoch increases by exactly one per pass; a record is
removed by the sweep iff its reference count is zero and its (stamped)
last-update epoch is strictly below the new current epoch; consequently a
zero-refcount record is never removed by the pass that observes its last
update and is removed by the following pass when it stays idle and
unreferenced. -/
theorem C3_epoch_and_registry_sweep (reg : Registry) (updated updated2 : List Nat)
    (i : Nat) (r : SweepRecord) (j : Nat) (q : SweepRecord)
    (hnd : (reg.records.map Prod.fst).Nodup)
    (hle : ∀ p ∈ reg.records, p.2.lastUpdate ≤ reg.epoch)
    (hmi : (i, r) ∈ reg.records)
    (hmj : (j, q) ∈ reg.records)
    (hjup : j ∈ updated)
    (hjq : q.refcount = 0)
    (hjup2 : j ∉ updated2) :
    SweepPost reg updated updated2 i r j q := by
  have hephase : (collectPass reg updated).epoch = reg.epoch + 1 := rfl
  -- the stamped version of (i, r)
  set e := reg.epoch + 1 with he
  set r2 := (stampRecord e updated (i, r)).2 with hr2
  have hr2le : r2.lastUpdate ≤ e := by
    rw [hr2]
    unfold stampRecord
    by_cases hc : i ∈ updated
    · simp [hc]
    · simp [hc]
      exact Nat.le_succ_of_le (hle (i, r) hmi)
  have heqpair : stampRecord e updated (i, r) = (i, (stampRecord e updated (i, r)).2) := by
    unfold stampRecord
    split <;> rfl
  have hstampmem : (i, r2) ∈ reg.records.map (stampRecord e updated) := by
    rw [hr2, ← heqpair]
    exact List.mem_map_of_mem _ hmi
  have hiff : (i, r2) ∈ (collectPass reg updated).records
      ↔ ¬(r2.refcount = 0 ∧ r2.lastUpdate < e) := by
    rw [collectPass_records]
    constructor
    · intro hmem
      have hpred := List.of_mem_filter hmem
      simp only [Bool.or_eq_true, bne_iff_ne, beq_iff_eq] at hpred
      rintro ⟨hzero, hlt⟩
      rcases hpred with hp | hp
      · exact hp hzero
      · exact absurd hp (Nat.ne_of_lt hlt)
    · intro hnot
      apply List.mem_filter.mpr
      refine ⟨hstampmem, ?_⟩
      simp only [Bool.or_eq_true, bne_iff_ne, beq_iff_eq]
      by_cases hzero : r2.refcount = 0
      · right
        have hnlt : ¬(r2.lastUpdate < e) := fun hlt => hnot ⟨hzero, hlt⟩
        exact Nat.le_antisymm hr2le (Nat.not_lt.mp hnlt)
      · exact Or.inl hzero
  -- the stamped version of (j, q) survives the first pass
  have hjstamp : stampRecord e updated (j, q) = (j, { q with lastUpdate := e }) := by
    unfold stampRecord
    simp [hjup]
  have hjsurv : (j, { q with lastUpdate := e }) ∈ (collectPass reg updated).records := by
    rw [collectPass_records]
    apply List.mem_filter.mpr
    constructor
    · rw [← hjstamp]
      exact List.mem_map_of_mem _ hmj
    · simp
  -- and is removed by the second pass
  have hgone : j ∉ ((collectPass (collectPass reg updated) updated2).records.map Prod.fst) := by
    intro hjmem
    obtain ⟨p2, hp2mem, hp2fst⟩ := List.mem_map.mp hjmem
    rw [collectPass_records] at hp2mem
    have hp2stamped := List.mem_of_mem_filter hp2mem
    have hpred2 := List.of_mem_filter hp2mem
    obtain ⟨y, hymem, hystamp⟩ := List.mem_map.mp hp2stamped
    have hyfst : y.1 = j := by
      have hfst := stampRecord_fst ((collectPass reg updated).epoch + 1) updated2 y
      rw [hystamp] at hfst
      rw [← hfst, hp2fst]
    have hynot : stampRecord ((collectPass reg updated).epoch + 1) updated2 y = y := by
      unfold stampRecord
      rw [hyfst]
      simp [hjup2]
    have hyp2 : y = p2 := by rw [← hystamp, hynot]
    have hypair : y = (j, y.2) := by rw [← hyfst]
    -- by key uniqueness in the first pass output, y is the stamped (j, q)
    have hy2 : y.2 = { q with lastUpdate := e } :=
      nodup_key_unique (collectPass_keys_nodup reg updated hnd)
        (hypair ▸ hymem) hjsurv
    rw [← hyp2, hy2] at hpred2
    simp only [Bool.or_eq_true, bne_iff_ne, beq_iff_eq] at hpred2
    rcases hpred2 with hp | hp
    · exact hp hjq
    · rw [hephase, he] at hp
      have hq : reg.epoch + 1 = reg.epoch + 1 + 1 := hp
      omega
  exact ⟨hephase, hiff, hjsurv, hgone⟩

theorem C3_epoch_and_registry_sweep_witness :
    (((Registry.mk 0 [(0, ⟨0, 0⟩), (1, ⟨1, 0⟩)]).records.map Prod.fst).Nodup
      ∧ ((1 : Nat), (⟨1, 0⟩ : SweepRecord)) ∈ (Registry.mk 0 [(0, ⟨0, 0⟩), (1, ⟨1, 0⟩)]).records
      ∧ ((0 : Nat), (⟨0, 0⟩ : SweepRecord)) ∈ (Registry.mk 0 [(0, ⟨0, 0⟩), (1, ⟨1, 0⟩)]).records
      ∧ (0 : Nat) ∈ [0]
      ∧ (SweepRecord.mk 0 0).refcount = 0
      ∧ (0 : Nat) ∉ ([] : List Nat))
    ∧ SweepPost (Registry.mk 0 [(0, ⟨0, 0⟩), (1, ⟨1, 0⟩)]) [0] [] 1 ⟨1, 0⟩ 0 ⟨0, 0⟩ :=
  ⟨⟨by decide, by decide, by decide, by decide, by decide, by decide⟩,
   C3_epoch_and_registry_sweep (Registry.mk 0 [(0, ⟨0, 0⟩), (1, ⟨1, 0⟩)]) [0] []
     1 ⟨1, 0⟩ 0 ⟨0, 0⟩ (by decide) (by decide) (by decide) (by decide) (by decide)
     (by decide) (by decide)⟩

end OtelSweep

/-! ## Push-controller export error handling -/

namespace OtelPush

/-- C2 as stated is false on the behavior pinned by `TestPushExportError`:
with an unexpected (non-ErrNoData) error injected for `counter1.sum`, the
whole pass's output is suppressed — `counter2.sum` is among the pass's
records but is not exported — and the error goes to the error handler,
exactly as the test's `errUnexpected` case expects an empty value map. -/
theorem C2_counterexample_unexpected_error_suppresses_pass :
    pushExportPass (testInjector (ExportError.errOther "unexpected error")) testRecords
      = { exported := [],
          handlerErr := some (ExportError.errOther "unexpected error") }
    ∧ ("counter2.sum", 5) ∈ testRecords
    ∧ ("counter2.sum", 5) ∉ (pushExportPass
        (testInjector (ExportError.errOther "unexpected error")) testRecords).exported := by
  refine ⟨rfl, by decide, by decide⟩

/-- C2 amended: when the export errors in a pass are only the ErrNoData
sentinel, the failing records are skipped and every other instrument's
record in the same pass is still exported, with no error reaching the
handler; a non-ErrNoData error instead stops the pass at the failing record,
exporting exactly the records before it, and is routed to the error
handler. -/
theorem C2_amended_errNoData_isolated (inject : String → Option ExportError)
    (records : List (String × Int))
    (inject2 : String → Option ExportError)
    (pre post : List (String × Int)) (nm0 : String) (v0 : Int) (msg : String)
    (hinj : ∀ nm, inject nm = none ∨ inject nm = some ExportError.errNoData)
    (hpre : ∀ r ∈ pre, inject2 r.1 = none)
    (h0 : inject2 nm0 = some (ExportError.errOther msg)) :
    pushExportPass inject records
      = { exported := records.filter fun r => (inject r.1).isNone,
          handlerErr := none }
    ∧ pushExportPass inject2 (pre ++ (nm0, v0) :: post)
      = { exported := pre, handlerErr := some (ExportError.errOther msg) } := by
  constructor
  · suffices h : exportForEach inject records
        = (records.filter fun r => (inject r.1).isNone, none) by
      unfold pushExportPass
      rw [h]
    induction records with
    | nil => rfl
    | cons r rest ih =>
      rcases hinj r.1 with hc | hc <;>
        simp [exportForEach, hc, List.filter_cons, ih]
  · suffices h : exportForEach inject2 (pre ++ (nm0, v0) :: post)
        = (pre, some (ExportError.errOther msg)) by
      unfold pushExportPass
      rw [h]
    induction pre with
    | nil =>
      simp [exportForEach, h0]
    | cons p rest ih =>
      have hp : inject2 p.1 = none := hpre p (List.mem_cons_self p rest)
      have hrest : ∀ r ∈ rest, inject2 r.1 = none :=
        fun r hr => hpre r (List.mem_cons_of_mem p hr)
      simp [exportForEach, hp, ih hrest]

theorem C2_amended_errNoData_isolated_witness :
    (testInjector (ExportError.errOther "boom") "counter1.sum"
        = some (ExportError.errOther "boom"))
    ∧ (pushExportPass (testInjector ExportError.errNoData) testRecords
        = { exported := testRecords.filter
              fun r => (testInjector ExportError.errNoData r.1).isNone,
            handlerErr := none }
      ∧ pushExportPass (testInjector (ExportError.errOther "boom"))
          ([("counter0.sum", 1)] ++ ("counter1.sum", 4) :: [("counter2.sum", 5)])
        = { exported := [("counter0.sum", 1)],
            handlerErr := some (ExportError.errOther "boom") }) :=
  ⟨by decide,
   C2_amended_errNoData_isolated (testInjector ExportError.errNoData) testRecords
     (testInjector (ExportError.errOther "boom"))
     [("counter0.sum", 1)] [("counter2.sum", 5)] "counter1.sum" 4 "boom"
     (fun nm => by
       unfold testInjector
       by_cases h : nm = "counter1.sum" <;> simp [h])
     (by decide) (by decide)⟩

end OtelPush

/-! ## The otlp transform of checkpointed records -/

namespace OtelTransform

/-- C8: a checkpointed record whose declared aggregation kind does not match
the concrete aggregator it carries yields the incompatible-aggregator error
and no metric output — in particular for the four mismatches exercised by
`TestRecordAggregatorIncompatibleErrors` — while the records of other
instruments in the same pass are transformed independently and are
unaffected. -/
theorem C8_incompatible_aggregator_isolated (k : AggregationKind) (a : ConcreteAgg)
    (rs : List (AggregationKind × ConcreteAgg)) (r : AggregationKind × ConcreteAgg)
    (hmis : implementsKind a k = false) :
    transformRecord k a = .error TransformError.errIncompatibleAgg
    ∧ transformRecord AggregationKind.sumKind ConcreteAgg.lastValueAgg
        = .error TransformError.errIncompatibleAgg
    ∧ transformRecord AggregationKind.lastValueKind ConcreteAgg.sumAgg
        = .error TransformError.errIncompatibleAgg
    ∧ transformRecord AggregationKind.minMaxSumCountKind ConcreteAgg.lastValueAgg
        = .error TransformError.errIncompatibleAgg
    ∧ transformRecord AggregationKind.exactKind ConcreteAgg.lastValueAgg
        = .error TransformError.errIncompatibleAgg
    ∧ transformCheckpointSet (rs ++ [r])
        = transformCheckpointSet rs ++ [transformRecord r.1 r.2]
    ∧ transformCheckpointSet (r :: rs)
        = transformRecord r.1 r.2 :: transformCheckpointSet rs := by
  refine ⟨?_, rfl, rfl, rfl, rfl, ?_, rfl⟩
  · simp [transformRecord, hmis]
  · simp [transformCheckpointSet]

theorem C8_incompatible_aggregator_isolated_witness :
    (implementsKind ConcreteAgg.lastValueAgg AggregationKind.sumKind = false)
    ∧ (transformRecord AggregationKind.sumKind ConcreteAgg.lastValueAgg
        = .error TransformError.errIncompatibleAgg
      ∧ transformCheckpointSet
          ([((AggregationKind.sumKind : AggregationKind), (ConcreteAgg.sumAgg : ConcreteAgg))]
            ++ [(AggregationKind.lastValueKind, ConcreteAgg.sumAgg)])
        = transformCheckpointSet [(AggregationKind.sumKind, ConcreteAgg.sumAgg)]
          ++ [transformRecord AggregationKind.lastValueKind ConcreteAgg.sumAgg]) :=
  ⟨rfl,
   ⟨(C8_incompatible_aggregator_isolated AggregationKind.sumKind ConcreteAgg.lastValueAgg
      [(AggregationKind.sumKind, ConcreteAgg.sumAgg)]
      (AggregationKind.lastValueKind, ConcreteAgg.sumAgg) rfl).1,
    (C8_incompatible_aggregator_isolated AggregationKind.sumKind ConcreteAgg.lastValueAgg
      [(AggregationKind.sumKind, ConcreteAgg.sumAgg)]
      (AggregationKind.lastValueKind, ConcreteAgg.sumAgg) rfl).2.2.2.2.2.1⟩⟩

end OtelTransform
